import Mathlib

/-!
Verification of the procedural figure generator
(`generate_figures.py`, angle-based variant, and
`generate_figures_simple.py`, straight-line variant).

The two Python modules build a main polyline path and a short auxiliary
path from scalar parameters, rasterize every consecutive point pair as a
filled quadrilateral plus a filled disc at every vertex on a supersampled
RGBA canvas, downsample with a high-quality filter, and composite on an
opaque white RGB background.

The embedding below mirrors the source:
coordinates are real numbers (the source computes with floats),
each drawing call becomes a symbolic `DrawOp`, and the supersampled
canvas is the left-to-right application of the draw operations to the
white background (painter's algorithm: a later operation overwrites
every point it covers, no blending).
-/

set_option linter.unusedVariables false

namespace FigureProc

/-- Fill colors as the source passes them to the drawing library:
the RGBA background tuple `(255, 255, 255, 255)`, the name `black`
(angle-based variant), or a caller-supplied hex triplet such as
`#000000` (straight-line variant), kept opaque as a numeric code. -/
inductive Color where
  | rgba (r g b a : Nat)
  | black
  | hex (code : Nat)
deriving DecidableEq

/-- The opaque white background `(255, 255, 255, 255)`. -/
def white : Color := Color.rgba 255 255 255 255

/-- Raster modes used by the source (`Image.new('RGBA', ...)`,
`Image.new('RGB', ...)`). -/
inductive ImageMode where
  | RGB
  | RGBA
deriving DecidableEq

/-- Resampling filter used by the source (`Image.LANCZOS`). -/
inductive Filter where
  | LANCZOS
deriving DecidableEq

/-- A point of the supersampled canvas plane. -/
abbrev Point : Type := ℝ × ℝ

/-- One drawing call issued by the source: a filled polygon
(`draw.polygon(points, fill=color)`) or a filled ellipse given by the
corners of its bounding box (`draw.ellipse([left_up, right_down],
fill=color)`). -/
inductive DrawOp where
  | polygon (corners : List Point) (fill : Color)
  | ellipse (leftUp rightDown : Point) (fill : Color)

/-- The fill color of a drawing call. -/
def opColor : DrawOp → Color
  | DrawOp.polygon _ f => f
  | DrawOp.ellipse _ _ f => f

/-- `true` for a polygon (segment) call, `false` for an ellipse (joint
disc) call. -/
def kind : DrawOp → Bool
  | DrawOp.polygon _ _ => true
  | DrawOp.ellipse _ _ _ => false

/-- The set of plane points covered by one drawing call.  A filled
polygon covers its closed convex hull (the rasterizer's fill is
boundary-inclusive: a degenerate polygon still paints the segment its
corners span).  A filled ellipse with bounding box `[leftUp, rightDown]`
covers the closed elliptical region of that box; the bounding-box
clauses pin the degenerate zero-size box to its center point, matching
the rasterizer, which still paints the single point of a zero-size
bounding box. -/
def covers : DrawOp → Point → Prop
  | DrawOp.polygon corners _, pt => pt ∈ convexHull ℝ {q : Point | q ∈ corners}
  | DrawOp.ellipse lu rd _, pt =>
      (pt.1 - (lu.1 + rd.1) / 2) ^ 2 * ((rd.2 - lu.2) / 2) ^ 2
          + (pt.2 - (lu.2 + rd.2) / 2) ^ 2 * ((rd.1 - lu.1) / 2) ^ 2
        ≤ ((rd.1 - lu.1) / 2) ^ 2 * ((rd.2 - lu.2) / 2) ^ 2
      ∧ |pt.1 - (lu.1 + rd.1) / 2| ≤ (rd.1 - lu.1) / 2
      ∧ |pt.2 - (lu.2 + rd.2) / 2| ≤ (rd.2 - lu.2) / 2

open Classical in
/-- Apply one drawing call on top of an existing canvas: every covered
point takes the call's fill color, every other point keeps the color it
had (flat overwrite, no blending). -/
noncomputable def applyOne (op : DrawOp) (canvas : Point → Color) : Point → Color :=
  fun pt => if covers op pt then opColor op else canvas pt

/-- Apply a list of drawing calls left to right (the order the source
issues them); a later call paints over every earlier one. -/
noncomputable def paint : List DrawOp → (Point → Color) → Point → Color
  | [], canvas => canvas
  | op :: rest, canvas => paint rest (applyOne op canvas)

/-- Canvas dimensions (`CANVAS_WIDTH = 300`). -/
def CANVAS_WIDTH : Nat := 300

/-- Canvas dimensions (`CANVAS_HEIGHT = 500`). -/
def CANVAS_HEIGHT : Nat := 500

/-- Supersampling factor (`SCALE_FACTOR = 10`). -/
def SCALE_FACTOR : Nat := 10

/-- Starting horizontal coordinate, `x_center = 150 * SCALE_FACTOR`. -/
noncomputable def x_center : ℝ := 150 * (SCALE_FACTOR : ℝ)

/-- Degrees to radians, `math.radians`. -/
noncomputable def radians (deg : ℝ) : ℝ := deg * Real.pi / 180

/-- `calculate_point_from_angle` of `generate_figures.py` (lines 33-45):
end point from a start point, an angle in degrees measured clockwise
from vertical (downward), and a distance. -/
noncomputable def calculate_point_from_angle (start_x start_y angle_degrees distance : ℝ) :
    Point :=
  (start_x + distance * Real.sin (radians angle_degrees),
   start_y + distance * Real.cos (radians angle_degrees))

open Classical in
/-- `draw_antialiased_line` (identical in both modules): the drawing
calls it issues.  If the two endpoints coincide the segment length is
zero and the function returns before normalizing (no call, no division);
otherwise it issues exactly one filled-polygon call whose corners are
the endpoints offset by plus and minus the half-width perpendicular. -/
noncomputable def draw_antialiased_line (x1 y1 x2 y2 width : ℝ) (color : Color) :
    List DrawOp :=
  let dx := x2 - x1
  let dy := y2 - y1
  let length := Real.sqrt (dx * dx + dy * dy)
  if length = 0 then []
  else
    let ux := dx / length
    let uy := dy / length
    let px := -uy * width / 2
    let py := ux * width / 2
    [DrawOp.polygon
      [(x1 + px, y1 + py), (x1 - px, y1 - py), (x2 - px, y2 - py), (x2 + px, y2 + py)]
      color]

/-- The drawing calls of the per-segment loop
`for i in range(len(points) - 1): draw_antialiased_line(...)`:
one rasterized segment per consecutive point pair, in path order. -/
noncomputable def segOps : List Point → ℝ → Color → List DrawOp
  | p1 :: p2 :: rest, w, col =>
      draw_antialiased_line p1.1 p1.2 p2.1 p2.2 w col ++ segOps (p2 :: rest) w col
  | _, _, _ => []

/-- The drawing calls of the joint loop: for every vertex an ellipse
whose bounding box is the vertex offset by half the scaled stroke width
in each direction (a disc of diameter the stroke width). -/
noncomputable def jointOps (pts : List Point) (w : ℝ) (col : Color) : List DrawOp :=
  pts.map fun p =>
    DrawOp.ellipse (p.1 - w / 2, p.2 - w / 2) (p.1 + w / 2, p.2 + w / 2) col

/-- The main path of `generate_figure` in `generate_figures.py`
(lines 98-143), with all ten parameters of the enclosing function in
scope: start at the midline, descend by `a`, turn by `g` degrees for the
derived distance `q = sqrt(d_scaled^2 + b_scaled^2)`, snap back to the
midline at the reached height, descend to absolute height `a+b+c`, move
left by `d`, turn right by `y` degrees for distance `d`, then continue
straight down to the bottom edge (all coordinates pre-scaled by
`SCALE_FACTOR`). -/
noncomputable def mainPointsAngle (a b g c y d e f h stroke_width : ℝ) : List Point :=
  let a_scaled := a * (SCALE_FACTOR : ℝ)
  let b_scaled := b * (SCALE_FACTOR : ℝ)
  let c_scaled := c * (SCALE_FACTOR : ℝ)
  let d_scaled := d * (SCALE_FACTOR : ℝ)
  let q := Real.sqrt (d_scaled ^ 2 + b_scaled ^ 2)
  let p2 := calculate_point_from_angle x_center a_scaled g q
  let p6 := calculate_point_from_angle (x_center - d_scaled)
    (a_scaled + b_scaled + c_scaled) (-y) d_scaled
  [(x_center, 0),
   (x_center, a_scaled),
   p2,
   (x_center, p2.2),
   (x_center, a_scaled + b_scaled + c_scaled),
   (x_center - d_scaled, a_scaled + b_scaled + c_scaled),
   p6,
   (p6.1, (CANVAS_HEIGHT : ℝ) * (SCALE_FACTOR : ℝ))]

/-- The auxiliary path of `generate_figure` in `generate_figures.py`
(lines 145-155): `point_a = (150-e, a)`, `point_b = (150-e-f, a)`,
`point_c = (150-e, a+h)`, pre-scaled. -/
noncomputable def auxPointsAngle (a b g c y d e f h stroke_width : ℝ) : List Point :=
  let a_scaled := a * (SCALE_FACTOR : ℝ)
  let e_scaled := e * (SCALE_FACTOR : ℝ)
  let f_scaled := f * (SCALE_FACTOR : ℝ)
  let h_scaled := h * (SCALE_FACTOR : ℝ)
  [(x_center - e_scaled, a_scaled),
   (x_center - e_scaled - f_scaled, a_scaled),
   (x_center - e_scaled, a_scaled + h_scaled)]

/-- The drawing calls issued by `generate_figure` in
`generate_figures.py` (lines 157-184), in source order: the main path's
segments, then the two auxiliary strokes, then the joint discs of the
main path, then the joint discs of the auxiliary path — all in `black`. -/
noncomputable def opsAngle (a b g c y d e f h stroke_width : ℝ) : List DrawOp :=
  let a_scaled := a * (SCALE_FACTOR : ℝ)
  let e_scaled := e * (SCALE_FACTOR : ℝ)
  let f_scaled := f * (SCALE_FACTOR : ℝ)
  let h_scaled := h * (SCALE_FACTOR : ℝ)
  let stroke_scaled := stroke_width * (SCALE_FACTOR : ℝ)
  let point_a : Point := (x_center - e_scaled, a_scaled)
  let point_b : Point := (x_center - e_scaled - f_scaled, a_scaled)
  let point_c : Point := (x_center - e_scaled, a_scaled + h_scaled)
  segOps (mainPointsAngle a b g c y d e f h stroke_width) stroke_scaled Color.black
    ++ draw_antialiased_line point_a.1 point_a.2 point_b.1 point_b.2
        stroke_scaled Color.black
    ++ draw_antialiased_line point_b.1 point_b.2 point_c.1 point_c.2
        stroke_scaled Color.black
    ++ jointOps (mainPointsAngle a b g c y d e f h stroke_width) stroke_scaled Color.black
    ++ jointOps (auxPointsAngle a b g c y d e f h stroke_width) stroke_scaled Color.black

/-- The main path of `generate_figure` in `generate_figures_simple.py`
(lines 92-115), with all nine parameters of the enclosing function in
scope: straight-line offsets only, pre-scaled by `SCALE_FACTOR`. -/
noncomputable def mainPointsSimple (a b c d e f g stroke_width : ℝ) (stroke_color : Color) :
    List Point :=
  let a_scaled := a * (SCALE_FACTOR : ℝ)
  let b_scaled := b * (SCALE_FACTOR : ℝ)
  let c_scaled := c * (SCALE_FACTOR : ℝ)
  let d_scaled := d * (SCALE_FACTOR : ℝ)
  [(x_center, 0),
   (x_center, a_scaled),
   (x_center + c_scaled, a_scaled + b_scaled),
   (x_center, a_scaled + b_scaled),
   (x_center, a_scaled + b_scaled + c_scaled),
   (x_center - d_scaled, a_scaled + b_scaled + c_scaled),
   (x_center, a_scaled + b_scaled + c_scaled + d_scaled),
   (x_center, (CANVAS_HEIGHT : ℝ) * (SCALE_FACTOR : ℝ))]

/-- The auxiliary path of `generate_figure` in
`generate_figures_simple.py` (lines 117-128). -/
noncomputable def auxPointsSimple (a b c d e f g stroke_width : ℝ) (stroke_color : Color) :
    List Point :=
  let a_scaled := a * (SCALE_FACTOR : ℝ)
  let e_scaled := e * (SCALE_FACTOR : ℝ)
  let f_scaled := f * (SCALE_FACTOR : ℝ)
  let g_scaled := g * (SCALE_FACTOR : ℝ)
  [(x_center - e_scaled, a_scaled),
   (x_center - e_scaled - f_scaled, a_scaled),
   (x_center - e_scaled, a_scaled + g_scaled)]

/-- The drawing calls issued by `generate_figure` in
`generate_figures_simple.py` (lines 130-157), in source order: main
segments, the two auxiliary strokes, main joint discs, auxiliary joint
discs — all in the caller-supplied `stroke_color`. -/
noncomputable def opsSimple (a b c d e f g stroke_width : ℝ) (stroke_color : Color) :
    List DrawOp :=
  let a_scaled := a * (SCALE_FACTOR : ℝ)
  let e_scaled := e * (SCALE_FACTOR : ℝ)
  let f_scaled := f * (SCALE_FACTOR : ℝ)
  let g_scaled := g * (SCALE_FACTOR : ℝ)
  let stroke_scaled := stroke_width * (SCALE_FACTOR : ℝ)
  let point_a : Point := (x_center - e_scaled, a_scaled)
  let point_b : Point := (x_center - e_scaled - f_scaled, a_scaled)
  let point_c : Point := (x_center - e_scaled, a_scaled + g_scaled)
  segOps (mainPointsSimple a b c d e f g stroke_width stroke_color)
      stroke_scaled stroke_color
    ++ draw_antialiased_line point_a.1 point_a.2 point_b.1 point_b.2
        stroke_scaled stroke_color
    ++ draw_antialiased_line point_b.1 point_b.2 point_c.1 point_c.2
        stroke_scaled stroke_color
    ++ jointOps (mainPointsSimple a b c d e f g stroke_width stroke_color)
        stroke_scaled stroke_color
    ++ jointOps (auxPointsSimple a b c d e f g stroke_width stroke_color)
        stroke_scaled stroke_color

/-- The supersampled drawing surface: its mode, pixel dimensions,
background color, and the drawing calls applied to it. -/
structure Rendered where
  mode : ImageMode
  size : Nat × Nat
  background : Color
  ops : List DrawOp

/-- The color of the supersampled canvas at a plane point: the draw
operations applied in order over the uniform background. -/
noncomputable def canvasPixel (r : Rendered) (pt : Point) : Color :=
  paint r.ops (fun _ => r.background) pt

/-- The value returned by `generate_figure`: the final image's mode and
pixel dimensions (from `img.resize((CANVAS_WIDTH, CANVAS_HEIGHT),
Image.LANCZOS)` and `Image.new('RGB', (CANVAS_WIDTH, CANVAS_HEIGHT),
'white')` + `paste`), together with the supersampled surface it was
downsampled from, the resampling filter, and the opaque paste
background. -/
structure FinalImage where
  mode : ImageMode
  size : Nat × Nat
  supersampled : Rendered
  filter : Filter
  pasteBackground : Color

/-- The final raster is the high-quality downsample of the supersampled
canvas composited on opaque white; it is blank (background-only) exactly
when the supersampled canvas is entirely the white background. -/
def FinalImage.blank (im : FinalImage) : Prop :=
  ∀ pt : Point, canvasPixel im.supersampled pt = white

/-- `generate_figure` of `generate_figures.py` (lines 73-193): draw on a
white RGBA canvas of `(CANVAS_WIDTH * SCALE_FACTOR, CANVAS_HEIGHT *
SCALE_FACTOR)` pixels, downsample to `(CANVAS_WIDTH, CANVAS_HEIGHT)`
with `Image.LANCZOS`, and composite onto a white RGB image of the same
size. -/
noncomputable def generate_figure_angle (a b g c y d e f h stroke_width : ℝ) : FinalImage :=
  { mode := ImageMode.RGB
    size := (CANVAS_WIDTH, CANVAS_HEIGHT)
    supersampled :=
      { mode := ImageMode.RGBA
        size := (CANVAS_WIDTH * SCALE_FACTOR, CANVAS_HEIGHT * SCALE_FACTOR)
        background := white
        ops := opsAngle a b g c y d e f h stroke_width }
    filter := Filter.LANCZOS
    pasteBackground := white }

/-- `generate_figure` of `generate_figures_simple.py` (lines 58-166). -/
noncomputable def generate_figure_simple (a b c d e f g stroke_width : ℝ)
    (stroke_color : Color) : FinalImage :=
  { mode := ImageMode.RGB
    size := (CANVAS_WIDTH, CANVAS_HEIGHT)
    supersampled :=
      { mode := ImageMode.RGBA
        size := (CANVAS_WIDTH * SCALE_FACTOR, CANVAS_HEIGHT * SCALE_FACTOR)
        background := white
        ops := opsSimple a b c d e f g stroke_width stroke_color }
    filter := Filter.LANCZOS
    pasteBackground := white }

/-- The draw ordering asserted by the spec (§4.3): the main path's
segments, then all joint discs of the main path, then the auxiliary
path's segments, then the auxiliary path's joint discs.  Stated from
the spec's words, for comparison with `opsSimple`, which follows the
source. -/
noncomputable def specOrderOpsSimple (a b c d e f g stroke_width : ℝ) (stroke_color : Color) :
    List DrawOp :=
  let stroke_scaled := stroke_width * (SCALE_FACTOR : ℝ)
  segOps (mainPointsSimple a b c d e f g stroke_width stroke_color)
      stroke_scaled stroke_color
    ++ jointOps (mainPointsSimple a b c d e f g stroke_width stroke_color)
        stroke_scaled stroke_color
    ++ segOps (auxPointsSimple a b c d e f g stroke_width stroke_color)
        stroke_scaled stroke_color
    ++ jointOps (auxPointsSimple a b c d e f g stroke_width stroke_color)
        stroke_scaled stroke_color

/-- The local variable `length` of `draw_antialiased_line`. -/
noncomputable def lineLength (x1 y1 x2 y2 : ℝ) : ℝ :=
  Real.sqrt ((x2 - x1) * (x2 - x1) + (y2 - y1) * (y2 - y1))

/-- The local offset `(px, py)` of `draw_antialiased_line`: the
perpendicular of the unit direction vector, scaled to half the width. -/
noncomputable def perpOffset (x1 y1 x2 y2 w : ℝ) : Point :=
  (-((y2 - y1) / lineLength x1 y1 x2 y2) * w / 2,
   (x2 - x1) / lineLength x1 y1 x2 y2 * w / 2)

lemma lineLength_eq_zero_iff (x1 y1 x2 y2 : ℝ) :
    lineLength x1 y1 x2 y2 = 0 ↔ x1 = x2 ∧ y1 = y2 := by
  rw [lineLength, Real.sqrt_eq_zero']
  constructor
  · intro hle
    have hx : x2 - x1 = 0 := by
      nlinarith [mul_self_nonneg (x2 - x1), mul_self_nonneg (y2 - y1)]
    have hy : y2 - y1 = 0 := by
      nlinarith [mul_self_nonneg (x2 - x1), mul_self_nonneg (y2 - y1)]
    exact ⟨by linarith, by linarith⟩
  · rintro ⟨hx, hy⟩
    rw [hx, hy]
    simp

lemma draw_antialiased_line_eq_nil (x y w : ℝ) (col : Color) :
    draw_antialiased_line x y x y w col = [] := by
  simp [draw_antialiased_line, sub_self]

lemma draw_antialiased_line_of_ne (x1 y1 x2 y2 w : ℝ) (col : Color)
    (hne : ¬(x1 = x2 ∧ y1 = y2)) :
    draw_antialiased_line x1 y1 x2 y2 w col =
      [DrawOp.polygon
        [(x1 + (perpOffset x1 y1 x2 y2 w).1, y1 + (perpOffset x1 y1 x2 y2 w).2),
         (x1 - (perpOffset x1 y1 x2 y2 w).1, y1 - (perpOffset x1 y1 x2 y2 w).2),
         (x2 - (perpOffset x1 y1 x2 y2 w).1, y2 - (perpOffset x1 y1 x2 y2 w).2),
         (x2 + (perpOffset x1 y1 x2 y2 w).1, y2 + (perpOffset x1 y1 x2 y2 w).2)]
        col] := by
  have hL : ¬ lineLength x1 y1 x2 y2 = 0 := fun hz =>
    hne ((lineLength_eq_zero_iff x1 y1 x2 y2).mp hz)
  simp only [draw_antialiased_line]
  rw [if_neg (by simpa [lineLength] using hL)]
  simp [perpOffset, lineLength]

lemma map_kind_draw_of_ne (x1 y1 x2 y2 w : ℝ) (col : Color)
    (hne : ¬(x1 = x2 ∧ y1 = y2)) :
    (draw_antialiased_line x1 y1 x2 y2 w col).map kind = [true] := by
  rw [draw_antialiased_line_of_ne x1 y1 x2 y2 w col hne]
  rfl

lemma map_kind_jointOps (pts : List Point) (w : ℝ) (col : Color) :
    (jointOps pts w col).map kind = List.replicate pts.length false := by
  induction pts with
  | nil => rfl
  | cons p rest ih => simpa [jointOps, kind, List.replicate_succ] using ih

lemma paint_append_single (pre : List DrawOp) (op : DrawOp)
    (canvas : Point → Color) (pt : Point) :
    paint (pre ++ [op]) canvas pt = applyOne op (paint pre canvas) pt := by
  induction pre generalizing canvas with
  | nil => rfl
  | cons q rest ih => simpa [paint] using ih (applyOne q canvas)

lemma paint_const_color (ops : List DrawOp) (c : Color) (canvas : Point → Color)
    (pt : Point) (hcol : ∀ op ∈ ops, opColor op = c) :
    paint ops canvas pt = c ∨ paint ops canvas pt = canvas pt := by
  induction ops generalizing canvas with
  | nil => exact Or.inr rfl
  | cons op rest ih =>
    have hrest : ∀ o ∈ rest, opColor o = c := fun o ho =>
      hcol o (List.mem_cons_of_mem _ ho)
    rcases ih (applyOne op canvas) hrest with hl | hr
    · exact Or.inl hl
    · rw [paint, hr, applyOne]
      by_cases hc : covers op pt
      · rw [if_pos hc, hcol op (List.mem_cons_self _ _)]
        exact Or.inl rfl
      · rw [if_neg hc]
        exact Or.inr rfl

lemma paint_covered (ops : List DrawOp) (c : Color) (canvas : Point → Color)
    (pt : Point) (hcol : ∀ op ∈ ops, opColor op = c)
    (hcov : ∃ op ∈ ops, covers op pt) :
    paint ops canvas pt = c := by
  induction ops generalizing canvas with
  | nil => exact absurd hcov (by simp)
  | cons op rest ih =>
    have hrest : ∀ o ∈ rest, opColor o = c := fun o ho =>
      hcol o (List.mem_cons_of_mem _ ho)
    rcases hcov with ⟨o, ho, hcovo⟩
    rcases List.mem_cons.mp ho with rfl | homem
    · rcases paint_const_color rest c (applyOne o canvas) pt hrest with hl | hr
      · exact hl
      · rw [paint, hr, applyOne, if_pos hcovo, hcol o (List.mem_cons_self _ _)]
    · exact ih (applyOne op canvas) hrest ⟨o, homem, hcovo⟩

lemma opColor_draw (x1 y1 x2 y2 w : ℝ) (col : Color) (op : DrawOp)
    (hop : op ∈ draw_antialiased_line x1 y1 x2 y2 w col) :
    opColor op = col := by
  simp only [draw_antialiased_line] at hop
  split at hop
  · exact absurd hop (List.not_mem_nil op)
  · rcases List.mem_singleton.mp hop with rfl
    rfl

lemma opColor_segOps : ∀ (pts : List Point) (w : ℝ) (col : Color) (op : DrawOp),
    op ∈ segOps pts w col → opColor op = col
  | [], _, _, _ => by simp [segOps]
  | [p], _, _, _ => by simp [segOps]
  | p1 :: p2 :: rest, w, col, op => by
    intro hop
    rw [segOps] at hop
    rcases List.mem_append.mp hop with h1 | h2
    · exact opColor_draw p1.1 p1.2 p2.1 p2.2 w col op h1
    · exact opColor_segOps (p2 :: rest) w col op h2

lemma opColor_jointOps (pts : List Point) (w : ℝ) (col : Color) (op : DrawOp)
    (hop : op ∈ jointOps pts w col) : opColor op = col := by
  simp only [jointOps, List.mem_map] at hop
  rcases hop with ⟨p, _, rfl⟩
  rfl

lemma opColor_opsAngle (a b g c y d e f h stroke_width : ℝ) (op : DrawOp)
    (hop : op ∈ opsAngle a b g c y d e f h stroke_width) :
    opColor op = Color.black := by
  simp only [opsAngle, List.mem_append] at hop
  rcases hop with ((((h1 | h2) | h3) | h4) | h5)
  · exact opColor_segOps _ _ _ op h1
  · exact opColor_draw _ _ _ _ _ _ op h2
  · exact opColor_draw _ _ _ _ _ _ op h3
  · exact opColor_jointOps _ _ _ op h4
  · exact opColor_jointOps _ _ _ op h5

lemma opColor_opsSimple (a b c d e f g stroke_width : ℝ) (stroke_color : Color)
    (op : DrawOp) (hop : op ∈ opsSimple a b c d e f g stroke_width stroke_color) :
    opColor op = stroke_color := by
  simp only [opsSimple, List.mem_append] at hop
  rcases hop with ((((h1 | h2) | h3) | h4) | h5)
  · exact opColor_segOps _ _ _ op h1
  · exact opColor_draw _ _ _ _ _ _ op h2
  · exact opColor_draw _ _ _ _ _ _ op h3
  · exact opColor_jointOps _ _ _ op h4
  · exact opColor_jointOps _ _ _ op h5

lemma covers_degenerate_joint (p : Point) (col : Color) :
    covers (DrawOp.ellipse (p.1 - 0 * (SCALE_FACTOR : ℝ) / 2, p.2 - 0 * (SCALE_FACTOR : ℝ) / 2)
      (p.1 + 0 * (SCALE_FACTOR : ℝ) / 2, p.2 + 0 * (SCALE_FACTOR : ℝ) / 2) col) p := by
  simp only [covers]
  norm_num

lemma vertex_painted_angle (a b g c y d e f h : ℝ) :
    paint (opsAngle a b g c y d e f h 0) (fun _ => white) (x_center, 0) = Color.black := by
  apply paint_covered _ _ _ _ (fun op hop => opColor_opsAngle a b g c y d e f h 0 op hop)
  refine ⟨DrawOp.ellipse
      (x_center - 0 * (SCALE_FACTOR : ℝ) / 2, 0 - 0 * (SCALE_FACTOR : ℝ) / 2)
      (x_center + 0 * (SCALE_FACTOR : ℝ) / 2, 0 + 0 * (SCALE_FACTOR : ℝ) / 2)
      Color.black, ?_, ?_⟩
  · have hp0 : ((x_center, (0 : ℝ)) : Point) ∈ mainPointsAngle a b g c y d e f h 0 := by
      simp [mainPointsAngle]
    have hj : DrawOp.ellipse
        (x_center - 0 * (SCALE_FACTOR : ℝ) / 2, 0 - 0 * (SCALE_FACTOR : ℝ) / 2)
        (x_center + 0 * (SCALE_FACTOR : ℝ) / 2, 0 + 0 * (SCALE_FACTOR : ℝ) / 2)
        Color.black
        ∈ jointOps (mainPointsAngle a b g c y d e f h 0) (0 * (SCALE_FACTOR : ℝ))
            Color.black := by
      simp only [jointOps]
      exact List.mem_map_of_mem _ hp0
    simp only [opsAngle]
    exact List.mem_append_left _ (List.mem_append_right _ hj)
  · exact covers_degenerate_joint (x_center, 0) Color.black

lemma vertex_painted_simple (a b c d e f g : ℝ) (stroke_color : Color) :
    paint (opsSimple a b c d e f g 0 stroke_color) (fun _ => white) (x_center, 0)
      = stroke_color := by
  apply paint_covered _ _ _ _
    (fun op hop => opColor_opsSimple a b c d e f g 0 stroke_color op hop)
  refine ⟨DrawOp.ellipse
      (x_center - 0 * (SCALE_FACTOR : ℝ) / 2, 0 - 0 * (SCALE_FACTOR : ℝ) / 2)
      (x_center + 0 * (SCALE_FACTOR : ℝ) / 2, 0 + 0 * (SCALE_FACTOR : ℝ) / 2)
      stroke_color, ?_, ?_⟩
  · have hp0 : ((x_center, (0 : ℝ)) : Point)
        ∈ mainPointsSimple a b c d e f g 0 stroke_color := by
      simp [mainPointsSimple]
    have hj : DrawOp.ellipse
        (x_center - 0 * (SCALE_FACTOR : ℝ) / 2, 0 - 0 * (SCALE_FACTOR : ℝ) / 2)
        (x_center + 0 * (SCALE_FACTOR : ℝ) / 2, 0 + 0 * (SCALE_FACTOR : ℝ) / 2)
        stroke_color
        ∈ jointOps (mainPointsSimple a b c d e f g 0 stroke_color)
            (0 * (SCALE_FACTOR : ℝ)) stroke_color := by
      simp only [jointOps]
      exact List.mem_map_of_mem _ hp0
    simp only [opsSimple]
    exact List.mem_append_left _ (List.mem_append_right _ hj)
  · exact covers_degenerate_joint (x_center, 0) stroke_color

/-- C1: for every position and every stroke width, `draw_antialiased_line`
given two coinciding endpoints issues no drawing call (the zero-length
guard returns before the division by the length is reached), and a
figure whose turned segment is degenerate (`b = 0`, `d = 0`, so `q = 0`)
still renders to a full-size RGB image — rendering continues normally. -/
theorem C1_zero_length_segment_skipped :
    (∀ x y w : ℝ, ∀ col : Color, draw_antialiased_line x y x y w col = [])
    ∧ (∀ a g c y e f h w : ℝ,
        (generate_figure_angle a 0 g c y 0 e f h w).size = (300, 500)
        ∧ (generate_figure_angle a 0 g c y 0 e f h w).mode = ImageMode.RGB) :=
  ⟨fun x y w col => draw_antialiased_line_eq_nil x y w col,
   fun _ _ _ _ _ _ _ _ => ⟨rfl, rfl⟩⟩

/-- C2: for every parameter set of either variant, `generate_figure`
returns an image of exactly `CANVAS_WIDTH × CANVAS_HEIGHT = 300 × 500`
pixels in opaque RGB mode. -/
theorem C2_canvas_dimensions (a b g c y d e f h w : ℝ)
    (a' b' c' d' e' f' g' w' : ℝ) (col : Color) :
    (generate_figure_angle a b g c y d e f h w).size = (300, 500)
    ∧ (generate_figure_angle a b g c y d e f h w).mode = ImageMode.RGB
    ∧ (generate_figure_simple a' b' c' d' e' f' g' w' col).size = (300, 500)
    ∧ (generate_figure_simple a' b' c' d' e' f' g' w' col).mode = ImageMode.RGB :=
  ⟨rfl, rfl, rfl, rfl⟩

/-- C3: the renderer is a pure, deterministic function of its
parameters: two invocations with equal parameters produce equal images,
and in particular pixel-identical supersampled canvases, in both
variants. -/
theorem C3_determinism
    (a1 b1 g1 c1 y1 d1 e1 f1 h1 w1 a2 b2 g2 c2 y2 d2 e2 f2 h2 w2 : ℝ)
    (sa1 sb1 sc1 sd1 se1 sf1 sg1 sw1 sa2 sb2 sc2 sd2 se2 sf2 sg2 sw2 : ℝ)
    (col1 col2 : Color)
    (ha : a1 = a2) (hb : b1 = b2) (hg : g1 = g2) (hc : c1 = c2) (hy : y1 = y2)
    (hd : d1 = d2) (he : e1 = e2) (hf : f1 = f2) (hh : h1 = h2) (hw : w1 = w2)
    (hsa : sa1 = sa2) (hsb : sb1 = sb2) (hsc : sc1 = sc2) (hsd : sd1 = sd2)
    (hse : se1 = se2) (hsf : sf1 = sf2) (hsg : sg1 = sg2) (hsw : sw1 = sw2)
    (hcol : col1 = col2) :
    generate_figure_angle a1 b1 g1 c1 y1 d1 e1 f1 h1 w1
        = generate_figure_angle a2 b2 g2 c2 y2 d2 e2 f2 h2 w2
    ∧ (∀ pt : Point,
        canvasPixel (generate_figure_angle a1 b1 g1 c1 y1 d1 e1 f1 h1 w1).supersampled pt
          = canvasPixel (generate_figure_angle a2 b2 g2 c2 y2 d2 e2 f2 h2 w2).supersampled pt)
    ∧ generate_figure_simple sa1 sb1 sc1 sd1 se1 sf1 sg1 sw1 col1
        = generate_figure_simple sa2 sb2 sc2 sd2 se2 sf2 sg2 sw2 col2
    ∧ (∀ pt : Point,
        canvasPixel (generate_figure_simple sa1 sb1 sc1 sd1 se1 sf1 sg1 sw1 col1).supersampled pt
          = canvasPixel (generate_figure_simple sa2 sb2 sc2 sd2 se2 sf2 sg2 sw2 col2).supersampled pt) := by
  subst ha hb hg hc hy hd he hf hh hw hsa hsb hsc hsd hse hsf hsg hsw hcol
  exact ⟨rfl, fun _ => rfl, rfl, fun _ => rfl⟩

/-- Witness for C3 at a concrete parameter set. -/
theorem C3_determinism_witness :
    generate_figure_angle 100 50 20 50 290 20 20 20 15 3
        = generate_figure_angle 100 50 20 50 290 20 20 20 15 3
    ∧ (∀ pt : Point,
        canvasPixel (generate_figure_angle 100 50 20 50 290 20 20 20 15 3).supersampled pt
          = canvasPixel (generate_figure_angle 100 50 20 50 290 20 20 20 15 3).supersampled pt)
    ∧ generate_figure_simple 100 50 50 20 20 20 15 3 (Color.hex 0)
        = generate_figure_simple 100 50 50 20 20 20 15 3 (Color.hex 0)
    ∧ (∀ pt : Point,
        canvasPixel (generate_figure_simple 100 50 50 20 20 20 15 3 (Color.hex 0)).supersampled pt
          = canvasPixel (generate_figure_simple 100 50 50 20 20 20 15 3 (Color.hex 0)).supersampled pt) :=
  C3_determinism 100 50 20 50 290 20 20 20 15 3 100 50 20 50 290 20 20 20 15 3
    100 50 50 20 20 20 15 3 100 50 50 20 20 20 15 3 (Color.hex 0) (Color.hex 0)
    rfl rfl rfl rfl rfl rfl rfl rfl rfl rfl rfl rfl rfl rfl rfl rfl rfl rfl rfl

/-- C7: for every segment with distinct endpoints and every stroke
width, `draw_antialiased_line` issues exactly one filled four-corner
polygon call, its corners the two endpoints offset by plus and by minus
the perpendicular unit vector scaled to half the width. -/
theorem C7_segment_quadrilateral (x1 y1 x2 y2 w : ℝ) (col : Color)
    (hne : ¬(x1 = x2 ∧ y1 = y2)) :
    draw_antialiased_line x1 y1 x2 y2 w col =
      [DrawOp.polygon
        [(x1 + (perpOffset x1 y1 x2 y2 w).1, y1 + (perpOffset x1 y1 x2 y2 w).2),
         (x1 - (perpOffset x1 y1 x2 y2 w).1, y1 - (perpOffset x1 y1 x2 y2 w).2),
         (x2 - (perpOffset x1 y1 x2 y2 w).1, y2 - (perpOffset x1 y1 x2 y2 w).2),
         (x2 + (perpOffset x1 y1 x2 y2 w).1, y2 + (perpOffset x1 y1 x2 y2 w).2)]
        col] :=
  draw_antialiased_line_of_ne x1 y1 x2 y2 w col hne

/-- Witness for C7: the vertical unit segment with width 2 produces the
unit-wide axis-aligned rectangle. -/
theorem C7_segment_quadrilateral_witness :
    draw_antialiased_line 0 0 0 1 2 Color.black =
      [DrawOp.polygon [(-1, 0), (1, 0), (1, 1), (-1, 1)] Color.black] := by
  rw [C7_segment_quadrilateral 0 0 0 1 2 Color.black (by norm_num)]
  norm_num [perpOffset, lineLength, Real.sqrt_one]

/-- C8: in the angle-based builder the turned segment's travel distance
is the derived value `q = sqrt(d_scaled^2 + b_scaled^2)`, and its
endpoint is the first descent's endpoint `(x_center, a)` displaced by
`(q*sin g, q*cos g)` with `g` converted from degrees — the
caller-supplied `g` is used as is, never re-derived from `d` and `b`. -/
theorem C8_turned_segment_derived_distance (a b g c y d e f h w : ℝ) :
    (∀ sx sy ang dist : ℝ, calculate_point_from_angle sx sy ang dist =
        (sx + dist * Real.sin (radians ang), sy + dist * Real.cos (radians ang)))
    ∧ (mainPointsAngle a b g c y d e f h w).get? 1
        = some (x_center, a * (SCALE_FACTOR : ℝ))
    ∧ (mainPointsAngle a b g c y d e f h w).get? 2
        = some (x_center
              + Real.sqrt ((d * (SCALE_FACTOR : ℝ)) ^ 2 + (b * (SCALE_FACTOR : ℝ)) ^ 2)
                * Real.sin (radians g),
            a * (SCALE_FACTOR : ℝ)
              + Real.sqrt ((d * (SCALE_FACTOR : ℝ)) ^ 2 + (b * (SCALE_FACTOR : ℝ)) ^ 2)
                * Real.cos (radians g)) := by
  refine ⟨fun sx sy ang dist => rfl, ?_, ?_⟩ <;>
    simp [mainPointsAngle, calculate_point_from_angle, List.get?]

/-- C9: for the straight-line variant at
`a=100, b=50, c=50, d=20, e=20, f=20, g=15, stroke_width=3,
color=#000000`, the main path's y-coordinates are, in order, the
pre-scale heights `0, 100, 150, 150, 200, 200, 220` followed by the
bottom edge `500`, at the expected pre-scale x-offsets. -/
theorem C9_scenario_simple_path_heights :
    (mainPointsSimple 100 50 50 20 20 20 15 3 (Color.hex 0)).map Prod.snd
        = List.map (fun v => v * (SCALE_FACTOR : ℝ)) [0, 100, 150, 150, 200, 200, 220, 500]
    ∧ (mainPointsSimple 100 50 50 20 20 20 15 3 (Color.hex 0)).map Prod.fst
        = List.map (fun v => v * (SCALE_FACTOR : ℝ)) [150, 150, 200, 150, 150, 130, 150, 150] := by
  constructor <;> norm_num [mainPointsSimple, x_center, SCALE_FACTOR, CANVAS_HEIGHT]

/-- C10: in both builders the main path is independent of the
auxiliary-stroke parameters (`e, f, h` in the angle variant, `e, f, g`
in the straight-line variant), while those parameters do move the
auxiliary path's points (shown at `e = 20` versus `e = 30`). -/
theorem C10_main_path_independent_of_aux_params :
    (∀ a b g c y d e f h e' f' h' w : ℝ,
        mainPointsAngle a b g c y d e f h w = mainPointsAngle a b g c y d e' f' h' w)
    ∧ (∀ a b c d e f g e' f' g' w : ℝ, ∀ col : Color,
        mainPointsSimple a b c d e f g w col = mainPointsSimple a b c d e' f' g' w col)
    ∧ (auxPointsAngle 100 50 20 50 290 20 20 20 15 3).get? 0
        = some (x_center - 200, 1000)
    ∧ (auxPointsAngle 100 50 20 50 290 20 30 40 30 3).get? 0
        = some (x_center - 300, 1000)
    ∧ (auxPointsSimple 100 50 50 20 20 20 15 3 (Color.hex 0)).get? 0
        = some (x_center - 200, 1000)
    ∧ (auxPointsSimple 100 50 50 20 30 40 30 3 (Color.hex 0)).get? 0
        = some (x_center - 300, 1000) := by
  refine ⟨fun _ _ _ _ _ _ _ _ _ _ _ _ _ => rfl,
    fun _ _ _ _ _ _ _ _ _ _ _ _ => rfl, ?_, ?_, ?_, ?_⟩ <;>
    norm_num [auxPointsAngle, auxPointsSimple, SCALE_FACTOR, List.get?]

/-- C6 fails on the code: at stroke width 0 the rendering completes, but
the canvas is not blank — the first main-path vertex `(x_center, 0)` is
painted by its zero-size joint disc (the rasterizer still paints the
single point of a zero-size bounding box). -/
theorem C6_zero_stroke_counterexample :
    ¬ (generate_figure_angle 100 50 20 50 290 20 20 20 15 0).blank := by
  intro hb
  have h0 := hb (x_center, 0)
  have h1 : canvasPixel (generate_figure_angle 100 50 20 50 290 20 20 20 15 0).supersampled
      (x_center, 0) = Color.black := vertex_painted_angle 100 50 20 50 290 20 20 20 15
  rw [h1] at h0
  exact absurd h0 (by decide)

/-- C6 amended: for every parameter set with stroke width 0 the
rendering completes without error and returns a full-size opaque RGB
image, but the supersampled canvas is not guaranteed blank: the
main-path vertex `(x_center, 0)` is painted with the stroke color by its
zero-size joint disc, in both variants. -/
theorem C6_zero_stroke_amended :
    (∀ a b g c y d e f h : ℝ,
        (generate_figure_angle a b g c y d e f h 0).size = (300, 500)
        ∧ (generate_figure_angle a b g c y d e f h 0).mode = ImageMode.RGB
        ∧ canvasPixel (generate_figure_angle a b g c y d e f h 0).supersampled (x_center, 0)
            = Color.black)
    ∧ (∀ a b c d e f g : ℝ, ∀ col : Color,
        (generate_figure_simple a b c d e f g 0 col).size = (300, 500)
        ∧ (generate_figure_simple a b c d e f g 0 col).mode = ImageMode.RGB
        ∧ canvasPixel (generate_figure_simple a b c d e f g 0 col).supersampled (x_center, 0)
            = col) :=
  ⟨fun a b g c y d e f h => ⟨rfl, rfl, vertex_painted_angle a b g c y d e f h⟩,
   fun a b c d e f g col => ⟨rfl, rfl, vertex_painted_simple a b c d e f g col⟩⟩

/-- C4 fails on the code: with `g = 90` the snap-back (fourth) point has
height `a = 100` (scaled `1000`) because `cos 90° = 0`, while the fifth
point sits at the absolute height `a + b + c` (scaled `2000`); their
vertical distance is `1000`, not `c` scaled (`500`). -/
theorem C4_fifth_point_counterexample :
    (mainPointsAngle 100 50 90 50 290 20 20 20 15 3).get? 3 = some (x_center, 1000)
    ∧ (mainPointsAngle 100 50 90 50 290 20 20 20 15 3).get? 4 = some (x_center, 2000)
    ∧ ¬((2000 : ℝ) - 1000 = 50 * (SCALE_FACTOR : ℝ)) := by
  have hcos : Real.cos (radians 90) = 0 := by
    rw [radians, show (90 : ℝ) * Real.pi / 180 = Real.pi / 2 by ring, Real.cos_pi_div_two]
  refine ⟨?_, ?_, by norm_num [SCALE_FACTOR]⟩ <;>
    · simp [mainPointsAngle, calculate_point_from_angle, List.get?, hcos]
      norm_num [SCALE_FACTOR]

/-- C4 amended: the fifth point always lies on the midline at the
absolute scaled height `a + b + c`; it is at vertical distance exactly
`c` below the fourth (snap-back) point precisely when the
caller-supplied angle is consistent with `d` and `b`, i.e. when
`sqrt(d_scaled^2 + b_scaled^2) * cos(g°) = b_scaled`. -/
theorem C4_fifth_point_amended (a b g c y d e f h w : ℝ)
    (hcons : Real.sqrt ((d * (SCALE_FACTOR : ℝ)) ^ 2 + (b * (SCALE_FACTOR : ℝ)) ^ 2)
        * Real.cos (radians g) = b * (SCALE_FACTOR : ℝ)) :
    (mainPointsAngle a b g c y d e f h w).get? 3
        = some (x_center, a * (SCALE_FACTOR : ℝ)
            + Real.sqrt ((d * (SCALE_FACTOR : ℝ)) ^ 2 + (b * (SCALE_FACTOR : ℝ)) ^ 2)
              * Real.cos (radians g))
    ∧ (mainPointsAngle a b g c y d e f h w).get? 4
        = some (x_center,
            a * (SCALE_FACTOR : ℝ) + b * (SCALE_FACTOR : ℝ) + c * (SCALE_FACTOR : ℝ))
    ∧ (a * (SCALE_FACTOR : ℝ) + b * (SCALE_FACTOR : ℝ) + c * (SCALE_FACTOR : ℝ))
        - (a * (SCALE_FACTOR : ℝ)
            + Real.sqrt ((d * (SCALE_FACTOR : ℝ)) ^ 2 + (b * (SCALE_FACTOR : ℝ)) ^ 2)
              * Real.cos (radians g))
        = c * (SCALE_FACTOR : ℝ) := by
  refine ⟨?_, ?_, by rw [hcons]; ring⟩ <;>
    simp [mainPointsAngle, calculate_point_from_angle, List.get?]

/-- Witness for the amended C4 at the consistent triple
`d = 0, b = 50, g = 0` (vertical turn): the fifth point is exactly `c`
below the fourth. -/
theorem C4_fifth_point_amended_witness :
    (Real.sqrt (((0 : ℝ) * (SCALE_FACTOR : ℝ)) ^ 2 + ((50 : ℝ) * (SCALE_FACTOR : ℝ)) ^ 2)
        * Real.cos (radians 0) = 50 * (SCALE_FACTOR : ℝ))
    ∧ ((100 : ℝ) * (SCALE_FACTOR : ℝ) + 50 * (SCALE_FACTOR : ℝ) + 50 * (SCALE_FACTOR : ℝ))
        - (100 * (SCALE_FACTOR : ℝ)
            + Real.sqrt (((0 : ℝ) * (SCALE_FACTOR : ℝ)) ^ 2 + ((50 : ℝ) * (SCALE_FACTOR : ℝ)) ^ 2)
              * Real.cos (radians 0))
        = 50 * (SCALE_FACTOR : ℝ) := by
  have hcons : Real.sqrt (((0 : ℝ) * (SCALE_FACTOR : ℝ)) ^ 2 + ((50 : ℝ) * (SCALE_FACTOR : ℝ)) ^ 2)
      * Real.cos (radians 0) = 50 * (SCALE_FACTOR : ℝ) := by
    have h1 : ((0 : ℝ) * (SCALE_FACTOR : ℝ)) ^ 2 + ((50 : ℝ) * (SCALE_FACTOR : ℝ)) ^ 2
        = 500 ^ 2 := by norm_num [SCALE_FACTOR]
    rw [h1, Real.sqrt_sq (by norm_num : (0 : ℝ) ≤ 500), radians]
    norm_num [SCALE_FACTOR]
  exact ⟨hcons, (C4_fifth_point_amended 100 50 0 50 290 0 20 20 15 3 hcons).2.2⟩

/-- C5 fails on the code: at a concrete parameter set of the
straight-line variant, the draw order asserted by the spec (main
segments, main joints, auxiliary segments, auxiliary joints) differs
from the order the source issues (main segments, auxiliary segments,
main joints, auxiliary joints) — the eighth drawing call is an
auxiliary-segment polygon, not a joint disc. -/
theorem C5_draw_order_counterexample :
    specOrderOpsSimple 100 50 50 20 20 20 15 3 (Color.hex 0)
      ≠ opsSimple 100 50 50 20 20 20 15 3 (Color.hex 0) := by
  have hmain : mainPointsSimple 100 50 50 20 20 20 15 3 (Color.hex 0)
      = [((1500 : ℝ), (0 : ℝ)), (1500, 1000), (2000, 1500), (1500, 1500),
         (1500, 2000), (1300, 2000), (1500, 2200), (1500, 5000)] := by
    norm_num [mainPointsSimple, x_center, SCALE_FACTOR, CANVAS_HEIGHT]
  have haux : auxPointsSimple 100 50 50 20 20 20 15 3 (Color.hex 0)
      = [((1300 : ℝ), (1000 : ℝ)), (1100, 1000), (1300, 1150)] := by
    norm_num [auxPointsSimple, x_center, SCALE_FACTOR]
  have hcode : (opsSimple 100 50 50 20 20 20 15 3 (Color.hex 0)).map kind
      = [true, true, true, true, true, true, true, true, true, false, false, false,
         false, false, false, false, false, false, false, false] := by
    simp only [opsSimple]
    rw [hmain, haux]
    norm_num [segOps, jointOps, List.map_append, map_kind_draw_of_ne, kind,
      x_center, SCALE_FACTOR]
  have hspec : (specOrderOpsSimple 100 50 50 20 20 20 15 3 (Color.hex 0)).map kind
      = [true, true, true, true, true, true, true, false, false, false, false, false,
         false, false, false, true, true, false, false, false] := by
    simp only [specOrderOpsSimple]
    rw [hmain, haux]
    norm_num [segOps, jointOps, List.map_append, map_kind_draw_of_ne, kind,
      x_center, SCALE_FACTOR]
  intro hEq
  have hk : ([true, true, true, true, true, true, true, false, false, false, false, false,
      false, false, false, true, true, false, false, false] : List Bool)
      = [true, true, true, true, true, true, true, true, true, false, false, false,
         false, false, false, false, false, false, false, false] := by
    rw [← hspec, hEq, hcode]
  exact absurd hk (by decide)

/-- C5 amended: for every figure the drawing calls occur in this order:
the main path's segments strictly in path order, then the auxiliary
path's segments, then the main path's joint discs, then the auxiliary
path's joint discs; and painting is by overwrite — the last call of the
list is applied on top of the result of all earlier ones, covered points
taking its fill color with no blending. -/
theorem C5_draw_order_amended :
    (∀ a b g c y d e f h w : ℝ,
        opsAngle a b g c y d e f h w =
          segOps (mainPointsAngle a b g c y d e f h w)
              (w * (SCALE_FACTOR : ℝ)) Color.black
            ++ segOps (auxPointsAngle a b g c y d e f h w)
                (w * (SCALE_FACTOR : ℝ)) Color.black
            ++ jointOps (mainPointsAngle a b g c y d e f h w)
                (w * (SCALE_FACTOR : ℝ)) Color.black
            ++ jointOps (auxPointsAngle a b g c y d e f h w)
                (w * (SCALE_FACTOR : ℝ)) Color.black)
    ∧ (∀ a b c d e f g w : ℝ, ∀ col : Color,
        opsSimple a b c d e f g w col =
          segOps (mainPointsSimple a b c d e f g w col)
              (w * (SCALE_FACTOR : ℝ)) col
            ++ segOps (auxPointsSimple a b c d e f g w col)
                (w * (SCALE_FACTOR : ℝ)) col
            ++ jointOps (mainPointsSimple a b c d e f g w col)
                (w * (SCALE_FACTOR : ℝ)) col
            ++ jointOps (auxPointsSimple a b c d e f g w col)
                (w * (SCALE_FACTOR : ℝ)) col)
    ∧ (∀ (pre : List DrawOp) (op : DrawOp) (canvas : Point → Color) (pt : Point),
        paint (pre ++ [op]) canvas pt = applyOne op (paint pre canvas) pt) := by
  refine ⟨?_, ?_, paint_append_single⟩
  · intro a b g c y d e f h w
    simp [opsAngle, auxPointsAngle, segOps, List.append_assoc]
  · intro a b c d e f g w col
    simp [opsSimple, auxPointsSimple, segOps, List.append_assoc]

end FigureProc
